import Mathlib

/-!
Verification development for the GeoJSON feature-conversion core
(`convert-feature.ts`): projection of longitude/latitude to the unit
plane, flattening of rings/lines with per-vertex significance slots and
area/length metrics, and the top-level feature dispatch.

Coordinates and metrics are modelled over the real numbers; JavaScript
arrays of numbers become `List ℝ`.  The external point-reduction routine
(`simplify-path`) and the intermediate-feature constructor
(`proto-feature`) are not part of this module's sources; the former is
abstracted as a `Simplifier` parameter with its documented contract, the
latter is modelled from the specification's data model.
-/

namespace ConvertGeojson

/-- JSON-like scalar values used for feature ids and property values. -/
inductive JVal where
  | num (q : ℚ)
  | str (s : String)
deriving DecidableEq

/-- Property bag of a feature: an ordered key-value mapping. -/
abbrev Props := List (String × JVal)

/-- One coordinate position; the source reads only slots 0 and 1. -/
abbrev Pos := ℝ × ℝ

/-- Decoded GeoJSON geometry tree: one constructor per recognized kind,
plus `unsupported` carrying the kind string of any unrecognized geometry
(for example "Circle"). -/
inductive Geometry where
  | point (coords : Pos)
  | multiPoint (coords : List Pos)
  | lineString (coords : List Pos)
  | multiLineString (coords : List (List Pos))
  | polygon (coords : List (List Pos))
  | multiPolygon (coords : List (List (List Pos)))
  | geometryCollection (geometries : List Geometry)
  | unsupported (type : String)

/-- An input GeoJSON feature: optional id, properties, optional geometry. -/
structure Feature where
  id : Option JVal
  properties : Props
  geometry : Option Geometry

/-- The three input shapes accepted by `convertFeatures`. -/
inductive GeoJSONData where
  | featureCollection (features : List Feature)
  | feature (f : Feature)
  | geometry (g : Geometry)

/-- Options of the conversion (`ConvertFeatureOptions` plus the
`promoteId` / `generateId` fields read by `convertFeature`). -/
structure ConvertFeatureOptions where
  maxZoom : ℕ
  tolerance : ℝ
  extent : ℝ
  lineMetrics : Bool
  promoteId : Option String
  generateId : Bool

/-- A flattened ring or line: the flat buffer of (x, y, significance)
triples together with the `size`/`start`/`end` annotations the source
attaches to the array after flattening. -/
structure FlatLine where
  verts : List ℝ
  size : ℝ
  start : ℝ
  «end» : ℝ

/-- Geometry payload of an intermediate feature, at the nesting depth the
source builds for each kind. -/
inductive ProtoGeom where
  | flat (v : List ℝ)
  | line (l : FlatLine)
  | lines (ls : List FlatLine)
  | poly (ps : List (List FlatLine))

/-- An intermediate ("proto") feature. -/
structure ProtoFeature where
  id : Option JVal
  type : String
  geometry : ProtoGeom
  properties : Props

/-- Modelled from the spec: `createFeature` (in `proto-feature`, outside
this module's sources) builds the intermediate feature record with id,
kind, geometry and properties carried through unmodified (spec section 3,
"Intermediate feature"). -/
def createFeature (id : Option JVal) (type : String) (geometry : ProtoGeom)
    (properties : Props) : ProtoFeature :=
  ⟨id, type, geometry, properties⟩

theorem createFeature_type (id : Option JVal) (type : String)
    (geometry : ProtoGeom) (properties : Props) :
    (createFeature id type geometry properties).type = type :=
  rfl

/-- The external simplifier (`simplify-path`, outside this module's
sources): given the flat buffer, the offsets of the first and last vertex
and the squared tolerance, it returns the updated buffer (the source
mutates the buffer in place). -/
abbrev Simplifier := List ℝ → ℕ → ℕ → ℝ → List ℝ

/-- Modelled from the spec: the contract of the external Simplifier
(spec section 6): it mutates significance slots in place, so the length
is unchanged, and it leaves the vertex at `first` and the vertex at
`last` (three slots each) untouched. -/
def SimplifierOk (s : Simplifier) : Prop :=
  ∀ buf first last tol,
    (s buf first last tol).length = buf.length ∧
    ∀ i : ℕ, (first ≤ i ∧ i ≤ first + 2) ∨ (last ≤ i ∧ i ≤ last + 2) →
      (s buf first last tol)[i]? = buf[i]?

/-- The trivial simplifier, which keeps every significance unchanged. -/
def idSimplifier : Simplifier := fun buf _ _ _ => buf

theorem idSimplifier_ok : SimplifierOk idSimplifier :=
  fun _ _ _ _ => ⟨rfl, fun _ _ => rfl⟩

/-- Longitude to the unit plane: `x / 360 + 0.5` (source line 162). -/
noncomputable def projectX (x : ℝ) : ℝ :=
  x / 360 + 0.5

/-- Latitude to the unit plane: spherical-Mercator formula with the
result clamped to [0, 1] (source lines 166-170). -/
noncomputable def projectY (y : ℝ) : ℝ :=
  let sin := Real.sin (y * Real.pi / 180)
  let y2 := 0.5 - 0.25 * Real.log ((1 + sin) / (1 - sin)) / Real.pi
  if y2 < 0 then 0 else if y2 > 1 then 1 else y2

/-- The unclamped Mercator expression inside `projectY`. -/
noncomputable def projectYRaw (y : ℝ) : ℝ :=
  0.5 - 0.25 * Real.log ((1 + Real.sin (y * Real.pi / 180)) /
    (1 - Real.sin (y * Real.pi / 180))) / Real.pi

/-- JavaScript `ToInt32` of a natural number: reduce modulo 2^32 and
reinterpret the high half as negative. -/
def toInt32 (n : ℕ) : ℤ :=
  if n % 2 ^ 32 < 2 ^ 31 then ((n % 2 ^ 32 : ℕ) : ℤ)
  else ((n % 2 ^ 32 : ℕ) : ℤ) - 2 ^ 32

/-- JavaScript `1 << z`: a 32-bit shift, so the shift count is taken
modulo 32 and the result is a signed 32-bit integer. -/
def jsShl1 (z : ℕ) : ℤ :=
  toInt32 (2 ^ (z % 32))

/-- The squared simplification tolerance computed once per
`convertFeature` call (source line 62):
`Math.pow(options.tolerance / ((1 << options.maxZoom) * options.extent), 2)`. -/
noncomputable def toleranceSq (options : ConvertFeatureOptions) : ℝ :=
  (options.tolerance / ((jsShl1 options.maxZoom : ℝ) * options.extent)) ^ 2

/-- Feature-id resolution (source lines 64-69): start from the explicit
id, overwrite it with the promoted property when `promoteId` is given,
else with `index || 0` when `generateId` is set. -/
def resolveId (fid : Option JVal) (props : Props)
    (options : ConvertFeatureOptions) (index : Option ℕ) : Option JVal :=
  match options.promoteId with
  | some key => props.lookup key
  | none =>
    if options.generateId then some (.num ((index.getD 0 : ℕ) : ℚ)) else fid

/-- Message of the error thrown on an unrecognized geometry kind
(source line 113). -/
def invalidGeoJSONMessage : String :=
  "Input data is not a valid GeoJSON object."

/-- Projects one coordinate and appends an (x, y, 0) triple to the
buffer (source lines 119-121). -/
noncomputable def convertPoint (coords : Pos) (out : List ℝ) : List ℝ :=
  out ++ [projectX coords.1, projectY coords.2, 0]

/-- The MultiPoint loop (source lines 72-75): one `convertPoint` per
coordinate, accumulating into the same buffer. -/
noncomputable def convertMultiPoint (coords : List Pos) (out : List ℝ) : List ℝ :=
  coords.foldl (fun acc p => convertPoint p acc) out

/-- The projection/accumulation loop of `convertLine` (source lines
127-142): pushes a projected (x, y, 0) triple per input coordinate and,
from the second coordinate on, accumulates the signed shoelace area
contribution (`isPolygon`) or the Euclidean segment length. -/
noncomputable def convertLineLoop (isPolygon : Bool) :
    List Pos → List ℝ → ℝ → ℝ → ℝ → ℕ → List ℝ × ℝ
  | [], out, size, _, _, _ => (out, size)
  | p :: rest, out, size, x0, y0, j =>
    let x := projectX p.1
    let y := projectY p.2
    let out2 := out ++ [x, y, 0]
    let size2 :=
      if 0 < j then
        if isPolygon then size + (x0 * y - x * y0) / 2
        else size + Real.sqrt ((x - x0) ^ 2 + (y - y0) ^ 2)
      else size
    convertLineLoop isPolygon rest out2 size2 x y (j + 1)

/-- `convertLine` (source lines 123-152).  The source always passes a
fresh empty output array, so the buffer starts empty here; the
out-of-range writes `List.set` ignores cannot occur for the nonempty
rings the claims quantify over. -/
noncomputable def convertLine (s : Simplifier) (ring : List Pos)
    (tolerance : ℝ) (isPolygon : Bool) : FlatLine :=
  let r := convertLineLoop isPolygon ring [] 0 0 0 0
  let size := r.2
  let out := r.1
  let last := out.length - 3
  let out := out.set 2 1
  let out := s out 0 last tolerance
  let out := out.set (last + 2) 1
  ⟨out, |size|, 0, |size|⟩

/-- `convertLines` (source lines 154-160): one `convertLine` per ring,
collecting the flattened rings in order. -/
noncomputable def convertLines (s : Simplifier) (rings : List (List Pos))
    (tolerance : ℝ) (isPolygon : Bool) : List FlatLine :=
  rings.map fun ring => convertLine s ring tolerance isPolygon

mutual

/-- Geometry dispatch of `convertFeature` (source lines 70-116).  The
feature id has already been resolved by `convertFeature`; the
GeometryCollection case mirrors the source's recursive `convertFeature`
call on `{id, geometry: child, properties}`, which re-resolves the id
from the same properties before dispatching — hence the `resolveId`
applied again in `convertGeometryList`. -/
noncomputable def convertGeometry (s : Simplifier) (features : List ProtoFeature)
    (id : Option JVal) (props : Props) (options : ConvertFeatureOptions)
    (index : Option ℕ) (geom : Geometry) : Except String (List ProtoFeature) :=
  let tolerance := toleranceSq options
  match geom with
  | .point c =>
    .ok (features ++ [createFeature id "Point" (.flat (convertPoint c [])) props])
  | .multiPoint cs =>
    .ok (features ++ [createFeature id "MultiPoint" (.flat (convertMultiPoint cs [])) props])
  | .lineString cs =>
    .ok (features ++ [createFeature id "LineString"
      (.line (convertLine s cs tolerance false)) props])
  | .multiLineString cs =>
    if options.lineMetrics then
      .ok (features ++ cs.map fun line =>
        createFeature id "LineString" (.line (convertLine s line tolerance false)) props)
    else
      .ok (features ++ [createFeature id "MultiLineString"
        (.lines (convertLines s cs tolerance false)) props])
  | .polygon cs =>
    .ok (features ++ [createFeature id "Polygon"
      (.lines (convertLines s cs tolerance true)) props])
  | .multiPolygon ps =>
    .ok (features ++ [createFeature id "MultiPolygon"
      (.poly (ps.map fun polygon => convertLines s polygon tolerance true)) props])
  | .geometryCollection gs => convertGeometryList s features id props options index gs
  | .unsupported _ => .error invalidGeoJSONMessage
termination_by sizeOf geom

/-- The GeometryCollection loop (source lines 99-110): converts each
child geometry as a fresh feature carrying the parent's resolved id and
properties, accumulating into the same output sequence. -/
noncomputable def convertGeometryList (s : Simplifier) (features : List ProtoFeature)
    (id : Option JVal) (props : Props) (options : ConvertFeatureOptions)
    (index : Option ℕ) (gs : List Geometry) : Except String (List ProtoFeature) :=
  match gs with
  | [] => .ok features
  | g :: rest =>
    match convertGeometry s features (resolveId id props options index)
      props options index g with
    | .error e => .error e
    | .ok acc => convertGeometryList s acc id props options index rest
termination_by sizeOf gs

end

/-- `convertFeature` (source lines 50-117): skip features without a
geometry, resolve the feature id, then dispatch on the geometry kind. -/
noncomputable def convertFeature (s : Simplifier) (features : List ProtoFeature)
    (geojson : Feature) (options : ConvertFeatureOptions) (index : Option ℕ) :
    Except String (List ProtoFeature) :=
  match geojson.geometry with
  | none => .ok features
  | some geom =>
    convertGeometry s features (resolveId geojson.id geojson.properties options index)
      geojson.properties options index geom

/-- The feature-collection loop of `convertFeatures` (source lines
21-25): convert each member with its 0-based position as index. -/
noncomputable def convertFeaturesLoop (s : Simplifier)
    (options : ConvertFeatureOptions) :
    List Feature → ℕ → List ProtoFeature → Except String (List ProtoFeature)
  | [], _, features => .ok features
  | f :: rest, i, features =>
    match convertFeature s features f options (some i) with
    | .error e => .error e
    | .ok acc => convertFeaturesLoop s options rest (i + 1) acc

/-- `convertFeatures` (source lines 19-33): accepts a feature collection,
a single feature, or a bare geometry (wrapped as an anonymous feature). -/
noncomputable def convertFeatures (s : Simplifier) (data : GeoJSONData)
    (options : ConvertFeatureOptions) : Except String (List ProtoFeature) :=
  match data with
  | .featureCollection fs => convertFeaturesLoop s options fs 0 []
  | .feature f => convertFeature s [] f options none
  | .geometry g => convertFeature s [] ⟨none, [], some g⟩ options none

/-! Specification-side definitions: clean recursive descriptions of the
flattened buffer and of the accumulated metric, used to characterize the
imperative loop of `convertLine`. -/

/-- The flat (x, y, significance-0) triples of a projected coordinate
sequence. -/
noncomputable def flatTriples : List Pos → List ℝ
  | [] => []
  | p :: rest => projectX p.1 :: projectY p.2 :: 0 :: flatTriples rest

/-- Successive-segment accumulation starting from a previous point:
signed shoelace contribution for a polygon ring, Euclidean distance for
an open line. -/
noncomputable def segAccum (isPolygon : Bool) : Pos → List Pos → ℝ
  | _, [] => 0
  | p0, p :: rest =>
    (if isPolygon then (p0.1 * p.2 - p.1 * p0.2) / 2
     else Real.sqrt ((p.1 - p0.1) ^ 2 + (p.2 - p0.2) ^ 2)) +
      segAccum isPolygon p rest

/-- The running metric of a vertex sequence: signed shoelace sum between
consecutive vertices (polygon) or cumulative Euclidean length (line);
the first vertex contributes nothing. -/
noncomputable def ringMetric (isPolygon : Bool) : List Pos → ℝ
  | [] => 0
  | p :: rest => segAccum isPolygon p rest

/-- Projection of a single coordinate pair. -/
noncomputable def projPoint (p : Pos) : Pos :=
  (projectX p.1, projectY p.2)

/-- Pointwise projection of a coordinate sequence. -/
noncomputable def projPoints (l : List Pos) : List Pos :=
  l.map projPoint

/-- A geometry tree contains an unrecognized kind somewhere (possibly
nested inside GeometryCollections). -/
inductive HasUnsupported : Geometry → Prop where
  | base (t : String) : HasUnsupported (.unsupported t)
  | coll {g : Geometry} {gs : List Geometry} (hmem : g ∈ gs)
      (hg : HasUnsupported g) : HasUnsupported (.geometryCollection gs)

/-- A geometry kind that makes `convertGeometry` emit exactly one
intermediate feature: every recognized non-collection kind, except a
MultiLineString under `lineMetrics`, whose explosion emits one feature
per constituent line. -/
def ContributesOne (options : ConvertFeatureOptions) : Geometry → Prop
  | .point _ => True
  | .multiPoint _ => True
  | .lineString _ => True
  | .multiLineString _ => options.lineMetrics = false
  | .polygon _ => True
  | .multiPolygon _ => True
  | .geometryCollection _ => False
  | .unsupported _ => False

/-- The id of the first converted feature of a successful result, used
to state concrete counterexamples. -/
def firstId : Except String (List ProtoFeature) → Option (Option JVal)
  | .ok (pf :: _) => some pf.id
  | _ => none

/-- The number of converted features of a successful result. -/
def okLength : Except String (List ProtoFeature) → Option ℕ
  | .ok l => some l.length
  | .error _ => none

/-! Lemmas about the `convertLine` loop. -/

theorem convertLineLoop_fst (isPolygon : Bool) (rest : List Pos) :
    ∀ (out : List ℝ) (size x0 y0 : ℝ) (j : ℕ),
      (convertLineLoop isPolygon rest out size x0 y0 j).1 =
        out ++ flatTriples rest := by
  induction rest with
  | nil => intro out size x0 y0 j; simp [convertLineLoop, flatTriples]
  | cons p rest ih =>
    intro out size x0 y0 j
    simp only [convertLineLoop, flatTriples, ih]
    simp

theorem convertLineLoop_snd (isPolygon : Bool) (rest : List Pos) :
    ∀ (out : List ℝ) (size x0 y0 : ℝ) (j : ℕ),
      (convertLineLoop isPolygon rest out size x0 y0 (j + 1)).2 =
        size + segAccum isPolygon (x0, y0) (projPoints rest) := by
  induction rest with
  | nil => intro out size x0 y0 j; simp [convertLineLoop, projPoints, segAccum]
  | cons p rest ih =>
    intro out size x0 y0 j
    simp only [convertLineLoop, projPoints, List.map_cons, segAccum]
    rw [ih]
    simp only [projPoints, projPoint]
    cases isPolygon <;> simp <;> ring

theorem flatTriples_length (l : List Pos) :
    (flatTriples l).length = 3 * l.length := by
  induction l with
  | nil => simp [flatTriples]
  | cons p rest ih => simp [flatTriples, ih]; ring

theorem convertLine_verts_eq (s : Simplifier) (ring : List Pos)
    (tolerance : ℝ) (isPolygon : Bool) :
    (convertLine s ring tolerance isPolygon).verts =
      ((s ((flatTriples ring).set 2 1) 0 ((flatTriples ring).length - 3)
        tolerance).set ((flatTriples ring).length - 3 + 2) 1) := by
  simp [convertLine, convertLineLoop_fst]

theorem convertLine_size_eq (s : Simplifier) (ring : List Pos)
    (tolerance : ℝ) (isPolygon : Bool) :
    (convertLine s ring tolerance isPolygon).size =
      |ringMetric isPolygon (projPoints ring)| := by
  cases ring with
  | nil => simp [convertLine, convertLineLoop, ringMetric, projPoints]
  | cons p rest =>
    simp only [convertLine, convertLineLoop, if_neg (lt_irrefl 0)]
    rw [show (0 : ℕ) + 1 = 0 + 1 from rfl, convertLineLoop_snd]
    simp [ringMetric, projPoints, projPoint]

/-! Structural lemmas about the feature dispatch. -/

theorem resolveId_idem (fid : Option JVal) (props : Props)
    (options : ConvertFeatureOptions) (index : Option ℕ) :
    resolveId (resolveId fid props options index) props options index =
      resolveId fid props options index := by
  cases h : options.promoteId with
  | some key => simp [resolveId, h]
  | none => by_cases hg : options.generateId <;> simp [resolveId, h, hg]

theorem Geometry_sizeOf_pos (g : Geometry) : 1 ≤ sizeOf g := by
  cases g <;> simp_arith

theorem listGeometry_sizeOf_pos (l : List Geometry) : 1 ≤ sizeOf l := by
  cases l <;> simp_arith

/-- A geometry satisfying `ContributesOne` makes `convertGeometry` append
exactly one feature, carrying the given id and properties, of a
non-collection kind. -/
theorem convertGeometry_contributesOne {options : ConvertFeatureOptions}
    {g : Geometry} (hg : ContributesOne options g) (s : Simplifier)
    (feats : List ProtoFeature) (id : Option JVal) (props : Props)
    (idx : Option ℕ) :
    ∃ pf : ProtoFeature,
      convertGeometry s feats id props options idx g = .ok (feats ++ [pf]) ∧
      pf.id = id ∧ pf.properties = props ∧ pf.type ≠ "GeometryCollection" := by
  cases g with
  | point c =>
    exact ⟨createFeature id "Point" (.flat (convertPoint c [])) props,
      by simp [convertGeometry], rfl, rfl, by rw [createFeature_type]; decide⟩
  | multiPoint cs =>
    exact ⟨createFeature id "MultiPoint" (.flat (convertMultiPoint cs [])) props,
      by simp [convertGeometry], rfl, rfl, by rw [createFeature_type]; decide⟩
  | lineString cs =>
    exact ⟨createFeature id "LineString"
        (.line (convertLine s cs (toleranceSq options) false)) props,
      by simp [convertGeometry], rfl, rfl, by rw [createFeature_type]; decide⟩
  | multiLineString cs =>
    have hm : options.lineMetrics = false := hg
    exact ⟨createFeature id "MultiLineString"
        (.lines (convertLines s cs (toleranceSq options) false)) props,
      by simp [convertGeometry, hm], rfl, rfl, by rw [createFeature_type]; decide⟩
  | polygon cs =>
    exact ⟨createFeature id "Polygon"
        (.lines (convertLines s cs (toleranceSq options) true)) props,
      by simp [convertGeometry], rfl, rfl, by rw [createFeature_type]; decide⟩
  | multiPolygon ps =>
    exact ⟨createFeature id "MultiPolygon"
        (.poly (ps.map fun polygon =>
          convertLines s polygon (toleranceSq options) true)) props,
      by simp [convertGeometry], rfl, rfl, by rw [createFeature_type]; decide⟩
  | geometryCollection gs => exact hg.elim
  | unsupported t => exact hg.elim

/-- The GeometryCollection loop over children that each contribute one
feature: one output per child, carrying the re-resolved id and the
parent's properties. -/
theorem convertGeometryList_all_one {options : ConvertFeatureOptions}
    {gs : List Geometry} (h : ∀ g ∈ gs, ContributesOne options g)
    (s : Simplifier) (id : Option JVal) (props : Props) (idx : Option ℕ) :
    ∀ feats, ∃ δ,
      convertGeometryList s feats id props options idx gs = .ok (feats ++ δ) ∧
      δ.length = gs.length ∧
      ∀ pf ∈ δ, pf.id = resolveId id props options idx ∧
        pf.properties = props ∧ pf.type ≠ "GeometryCollection" := by
  induction gs with
  | nil =>
    intro feats
    exact ⟨[], by simp [convertGeometryList], rfl, by simp⟩
  | cons g rest ih =>
    intro feats
    obtain ⟨pf, hpf, hid, hprops, htype⟩ :=
      convertGeometry_contributesOne (h g (by simp)) s feats
        (resolveId id props options idx) props idx
    obtain ⟨δ, hδ, hlen, hmem⟩ :=
      ih (fun g' hg' => h g' (by simp [hg'])) (feats ++ [pf])
    refine ⟨pf :: δ, ?_, by simp [hlen], ?_⟩
    · simp only [convertGeometryList, hpf]
      rw [hδ, List.append_assoc]
      rfl
    · intro pf' hpf'
      rcases List.mem_cons.mp hpf' with h1 | h1
      · subst h1; exact ⟨hid, hprops, htype⟩
      · exact hmem pf' h1

/-- Splitting the GeometryCollection loop at a list append. -/
theorem convertGeometryList_append (s : Simplifier) (l1 l2 : List Geometry)
    (id : Option JVal) (props : Props) (options : ConvertFeatureOptions)
    (idx : Option ℕ) :
    ∀ feats, convertGeometryList s feats id props options idx (l1 ++ l2) =
      match convertGeometryList s feats id props options idx l1 with
      | .error e => .error e
      | .ok acc => convertGeometryList s acc id props options idx l2 := by
  induction l1 with
  | nil => intro feats; simp [convertGeometryList]
  | cons g rest ih =>
    intro feats
    rw [List.cons_append]
    simp only [convertGeometryList]
    cases convertGeometry s feats (resolveId id props options idx) props
      options idx g with
    | error e => rfl
    | ok acc => exact ih acc

/-- Joint shape lemma, by induction on the size of the geometry: under a
stable resolved id, conversion either appends a block of features all
carrying that id, the given properties and a non-collection kind, or
fails with the invalid-GeoJSON error. -/
theorem convertGeometry_shape (n : ℕ) :
    (∀ g : Geometry, sizeOf g ≤ n → ∀ (s : Simplifier)
      (feats : List ProtoFeature) (id : Option JVal) (props : Props)
      (options : ConvertFeatureOptions) (idx : Option ℕ),
      resolveId id props options idx = id →
      (∃ δ, convertGeometry s feats id props options idx g = .ok (feats ++ δ) ∧
        ∀ pf ∈ δ, pf.id = id ∧ pf.properties = props ∧
          pf.type ≠ "GeometryCollection") ∨
      convertGeometry s feats id props options idx g =
        .error invalidGeoJSONMessage) ∧
    (∀ gs : List Geometry, sizeOf gs ≤ n → ∀ (s : Simplifier)
      (feats : List ProtoFeature) (id : Option JVal) (props : Props)
      (options : ConvertFeatureOptions) (idx : Option ℕ),
      resolveId id props options idx = id →
      (∃ δ, convertGeometryList s feats id props options idx gs =
          .ok (feats ++ δ) ∧
        ∀ pf ∈ δ, pf.id = id ∧ pf.properties = props ∧
          pf.type ≠ "GeometryCollection") ∨
      convertGeometryList s feats id props options idx gs =
        .error invalidGeoJSONMessage) := by
  induction n with
  | zero =>
    constructor
    · intro g hg
      have := Geometry_sizeOf_pos g
      omega
    · intro gs hgs
      have := listGeometry_sizeOf_pos gs
      omega
  | succ n ihn =>
    obtain ⟨ih1, ih2⟩ := ihn
    constructor
    · intro g hg s feats id props options idx hstab
      cases g with
      | point c =>
        left
        refine ⟨[createFeature id "Point" (.flat (convertPoint c [])) props],
          by simp [convertGeometry], ?_⟩
        intro pf hpf
        simp only [List.mem_singleton] at hpf
        subst hpf
        exact ⟨rfl, rfl, by rw [createFeature_type]; decide⟩
      | multiPoint cs =>
        left
        refine ⟨[createFeature id "MultiPoint"
          (.flat (convertMultiPoint cs [])) props],
          by simp [convertGeometry], ?_⟩
        intro pf hpf
        simp only [List.mem_singleton] at hpf
        subst hpf
        exact ⟨rfl, rfl, by rw [createFeature_type]; decide⟩
      | lineString cs =>
        left
        refine ⟨[createFeature id "LineString"
          (.line (convertLine s cs (toleranceSq options) false)) props],
          by simp [convertGeometry], ?_⟩
        intro pf hpf
        simp only [List.mem_singleton] at hpf
        subst hpf
        exact ⟨rfl, rfl, by rw [createFeature_type]; decide⟩
      | multiLineString cs =>
        left
        by_cases hm : options.lineMetrics
        · refine ⟨cs.map fun line => createFeature id "LineString"
            (.line (convertLine s line (toleranceSq options) false)) props,
            by simp [convertGeometry, hm], ?_⟩
          intro pf hpf
          simp only [List.mem_map] at hpf
          obtain ⟨line, _, rfl⟩ := hpf
          exact ⟨rfl, rfl, by rw [createFeature_type]; decide⟩
        · refine ⟨[createFeature id "MultiLineString"
            (.lines (convertLines s cs (toleranceSq options) false)) props],
            by simp [convertGeometry, hm], ?_⟩
          intro pf hpf
          simp only [List.mem_singleton] at hpf
          subst hpf
          exact ⟨rfl, rfl, by rw [createFeature_type]; decide⟩
      | polygon cs =>
        left
        refine ⟨[createFeature id "Polygon"
          (.lines (convertLines s cs (toleranceSq options) true)) props],
          by simp [convertGeometry], ?_⟩
        intro pf hpf
        simp only [List.mem_singleton] at hpf
        subst hpf
        exact ⟨rfl, rfl, by rw [createFeature_type]; decide⟩
      | multiPolygon ps =>
        left
        refine ⟨[createFeature id "MultiPolygon"
          (.poly (ps.map fun polygon =>
            convertLines s polygon (toleranceSq options) true)) props],
          by simp [convertGeometry], ?_⟩
        intro pf hpf
        simp only [List.mem_singleton] at hpf
        subst hpf
        exact ⟨rfl, rfl, by rw [createFeature_type]; decide⟩
      | geometryCollection gs =>
        have hsize : sizeOf gs ≤ n := by
          simp only [Geometry.geometryCollection.sizeOf_spec] at hg
          omega
        have h := ih2 gs hsize s feats id props options idx hstab
        rw [show convertGeometry s feats id props options idx
            (.geometryCollection gs) =
            convertGeometryList s feats id props options idx gs from by
          simp [convertGeometry]]
        exact h
      | unsupported t =>
        right
        simp [convertGeometry, invalidGeoJSONMessage]
    · intro gs hgs s feats id props options idx hstab
      cases gs with
      | nil =>
        left
        exact ⟨[], by simp [convertGeometryList], by simp⟩
      | cons g rest =>
        have hgpos := Geometry_sizeOf_pos g
        have hrpos := listGeometry_sizeOf_pos rest
        have hsz : sizeOf (g :: rest) = 1 + sizeOf g + sizeOf rest := by
          simp_arith
        have hhead : sizeOf g ≤ n := by omega
        have htail : sizeOf rest ≤ n := by omega
        rcases ih1 g hhead s feats id props options idx hstab with
          ⟨δ1, hδ1, hmem1⟩ | herr
        · rcases ih2 rest htail s (feats ++ δ1) id props options idx hstab with
            ⟨δ2, hδ2, hmem2⟩ | herr2
          · left
            refine ⟨δ1 ++ δ2, ?_, ?_⟩
            · simp only [convertGeometryList, hstab, hδ1]
              rw [hδ2, List.append_assoc]
            · intro pf hpf
              rcases List.mem_append.mp hpf with h1 | h1
              · exact hmem1 pf h1
              · exact hmem2 pf h1
          · right
            simp only [convertGeometryList, hstab, hδ1]
            exact herr2
        · right
          simp only [convertGeometryList, hstab, herr]

/-- A geometry containing an unrecognized kind makes the dispatch fail
with the invalid-GeoJSON error, wherever the bad kind is nested. -/
theorem convertGeometry_hasUnsupported {g : Geometry} (hu : HasUnsupported g) :
    ∀ (s : Simplifier) (feats : List ProtoFeature) (id : Option JVal)
      (props : Props) (options : ConvertFeatureOptions) (idx : Option ℕ),
      resolveId id props options idx = id →
      convertGeometry s feats id props options idx g =
        .error invalidGeoJSONMessage := by
  induction hu with
  | base t =>
    intro s feats id props options idx _
    simp [convertGeometry]
  | @coll g gs hmem hgu ih =>
    intro s feats id props options idx hstab
    obtain ⟨l1, l2, rfl⟩ := List.append_of_mem hmem
    rw [show convertGeometry s feats id props options idx
        (.geometryCollection (l1 ++ g :: l2)) =
        convertGeometryList s feats id props options idx (l1 ++ g :: l2) from by
      simp [convertGeometry]]
    rw [convertGeometryList_append]
    rcases (convertGeometry_shape (sizeOf l1)).2 l1 le_rfl s feats id props
        options idx hstab with ⟨δ, hδ, _⟩ | herr
    · rw [hδ]
      simp only [convertGeometryList, hstab,
        ih s (feats ++ δ) id props options idx hstab]
    · rw [herr]

/-- Shape of a single `convertFeature` call: either it appends a block of
features, each carrying the resolved id, the feature's properties and a
non-collection kind, or it fails with the invalid-GeoJSON error. -/
theorem convertFeature_shape (s : Simplifier) (feats : List ProtoFeature)
    (f : Feature) (options : ConvertFeatureOptions) (idx : Option ℕ) :
    (∃ δ, convertFeature s feats f options idx = .ok (feats ++ δ) ∧
      ∀ pf ∈ δ, pf.id = resolveId f.id f.properties options idx ∧
        pf.properties = f.properties ∧ pf.type ≠ "GeometryCollection") ∨
    convertFeature s feats f options idx = .error invalidGeoJSONMessage := by
  cases hg : f.geometry with
  | none =>
    left
    exact ⟨[], by simp [convertFeature, hg], by simp⟩
  | some g =>
    have hunfold : convertFeature s feats f options idx =
        convertGeometry s feats (resolveId f.id f.properties options idx)
          f.properties options idx g := by
      rw [convertFeature, hg]
    rw [hunfold]
    exact (convertGeometry_shape (sizeOf g)).1 g le_rfl s feats
      (resolveId f.id f.properties options idx) f.properties options idx
      (resolveId_idem f.id f.properties options idx)

theorem convertFeature_hasUnsupported {f : Feature} {g : Geometry}
    (hg : f.geometry = some g) (hu : HasUnsupported g) (s : Simplifier)
    (feats : List ProtoFeature) (options : ConvertFeatureOptions)
    (idx : Option ℕ) :
    convertFeature s feats f options idx = .error invalidGeoJSONMessage := by
  rw [convertFeature, hg]
  exact convertGeometry_hasUnsupported hu s feats _ f.properties options idx
    (resolveId_idem f.id f.properties options idx)

/-- Splitting the feature-collection loop at a list append. -/
theorem convertFeaturesLoop_append (s : Simplifier)
    (options : ConvertFeatureOptions) (l1 l2 : List Feature) :
    ∀ (i : ℕ) (feats : List ProtoFeature),
    convertFeaturesLoop s options (l1 ++ l2) i feats =
      match convertFeaturesLoop s options l1 i feats with
      | .error e => .error e
      | .ok acc => convertFeaturesLoop s options l2 (i + l1.length) acc := by
  induction l1 with
  | nil => intro i feats; simp [convertFeaturesLoop]
  | cons f rest ih =>
    intro i feats
    rw [List.cons_append]
    simp only [convertFeaturesLoop]
    cases convertFeature s feats f options (some i) with
    | error e => rfl
    | ok acc =>
      show convertFeaturesLoop s options (rest ++ l2) (i + 1) acc =
        match convertFeaturesLoop s options rest (i + 1) acc with
        | .error e => .error e
        | .ok acc2 => convertFeaturesLoop s options l2 (i + (f :: rest).length) acc2
      rw [ih (i + 1) acc]
      simp only [List.length_cons]
      rw [show i + 1 + rest.length = i + (rest.length + 1) from by omega]

theorem convertFeaturesLoop_shape (s : Simplifier)
    (options : ConvertFeatureOptions) (fs : List Feature) :
    ∀ (i : ℕ) (feats : List ProtoFeature),
    (∃ acc, convertFeaturesLoop s options fs i feats = .ok acc) ∨
      convertFeaturesLoop s options fs i feats =
        .error invalidGeoJSONMessage := by
  induction fs with
  | nil =>
    intro i feats
    exact Or.inl ⟨feats, by simp [convertFeaturesLoop]⟩
  | cons f rest ih =>
    intro i feats
    rcases convertFeature_shape s feats f options (some i) with ⟨δ, hδ, _⟩ | herr
    · rw [show convertFeaturesLoop s options (f :: rest) i feats =
          convertFeaturesLoop s options rest (i + 1) (feats ++ δ) from by
        simp only [convertFeaturesLoop, hδ]]
      exact ih (i + 1) (feats ++ δ)
    · right
      simp only [convertFeaturesLoop, herr]

/-- A feature with no geometry contributes no output; a feature whose
geometry contributes one feature appends exactly one. -/
theorem convertFeature_count {options : ConvertFeatureOptions} {f : Feature}
    (hf : f.geometry = none ∨
      ∃ g, f.geometry = some g ∧ ContributesOne options g)
    (s : Simplifier) (feats : List ProtoFeature) (idx : Option ℕ) :
    ∃ δ, convertFeature s feats f options idx = .ok (feats ++ δ) ∧
      δ.length = (if f.geometry.isSome then 1 else 0) := by
  rcases hf with h | ⟨g, hg, hone⟩
  · exact ⟨[], by simp [convertFeature, h], by simp [h]⟩
  · obtain ⟨pf, hpf, _, _, _⟩ := convertGeometry_contributesOne hone s feats
      (resolveId f.id f.properties options idx) f.properties idx
    refine ⟨[pf], ?_, by simp [hg]⟩
    rw [convertFeature, hg]
    exact hpf

theorem convertFeaturesLoop_count (options : ConvertFeatureOptions)
    (s : Simplifier) :
    ∀ fs : List Feature,
    (∀ f ∈ fs, f.geometry = none ∨
      ∃ g, f.geometry = some g ∧ ContributesOne options g) →
    ∀ (i : ℕ) (feats : List ProtoFeature),
    ∃ δ, convertFeaturesLoop s options fs i feats = .ok (feats ++ δ) ∧
      δ.length = fs.countP (fun f => f.geometry.isSome) := by
  intro fs
  induction fs with
  | nil =>
    intro _ i feats
    exact ⟨[], by simp [convertFeaturesLoop], by simp⟩
  | cons f rest ih =>
    intro h i feats
    obtain ⟨δ1, hδ1, hlen1⟩ := convertFeature_count (h f (by simp)) s feats (some i)
    obtain ⟨δ2, hδ2, hlen2⟩ :=
      ih (fun f' hf' => h f' (by simp [hf'])) (i + 1) (feats ++ δ1)
    refine ⟨δ1 ++ δ2, ?_, ?_⟩
    · simp only [convertFeaturesLoop, hδ1]
      rw [hδ2, List.append_assoc]
    · rw [List.length_append, hlen1, hlen2, List.countP_cons]
      cases hfg : f.geometry <;> simp [hfg] <;> omega

/-- C3: for every flattened ring or line produced from a coordinate
sequence of length at least 2 and every tolerance, assuming the external
Simplifier satisfies its contract, the significance slot of the first
vertex (buffer index 2) and of the last vertex (buffer index 3n-1) both
equal 1 after conversion. -/
theorem endpoint_significance_pinned (s : Simplifier) (hs : SimplifierOk s)
    (ring : List Pos) (tolerance : ℝ) (isPolygon : Bool)
    (hlen : 2 ≤ ring.length) :
    ((convertLine s ring tolerance isPolygon).verts)[2]? = some 1 ∧
    ((convertLine s ring tolerance isPolygon).verts)[3 * ring.length - 1]? = some 1 ∧
    (convertLine s ring tolerance isPolygon).verts.length = 3 * ring.length := by
  have hft : (flatTriples ring).length = 3 * ring.length := flatTriples_length ring
  rw [convertLine_verts_eq, hft]
  obtain ⟨hslen, hspres⟩ :=
    hs ((flatTriples ring).set 2 1) 0 (3 * ring.length - 3) tolerance
  rw [List.length_set] at hslen
  have hlen6 : 6 ≤ 3 * ring.length := by omega
  refine ⟨?_, ?_, ?_⟩
  · rw [List.getElem?_set_ne (by omega)]
    rw [hspres 2 (Or.inl (by omega))]
    rw [List.getElem?_set_self (by omega)]
  · have hidx : 3 * ring.length - 3 + 2 = 3 * ring.length - 1 := by omega
    rw [hidx, List.getElem?_set_self (by omega)]
  · rw [List.length_set, hslen, hft]

theorem endpoint_significance_pinned_witness :
    SimplifierOk idSimplifier ∧
    2 ≤ ([((0 : ℝ), (0 : ℝ)), (1, 1)] : List Pos).length ∧
    ((convertLine idSimplifier [((0 : ℝ), (0 : ℝ)), (1, 1)] 0 false).verts)[2]? = some 1 ∧
    ((convertLine idSimplifier [((0 : ℝ), (0 : ℝ)), (1, 1)] 0 false).verts)[3 * 2 - 1]? = some 1 := by
  refine ⟨idSimplifier_ok, by norm_num, ?_, ?_⟩
  · exact (endpoint_significance_pinned idSimplifier idSimplifier_ok
      [((0 : ℝ), (0 : ℝ)), (1, 1)] 0 false (by norm_num)).1
  · exact (endpoint_significance_pinned idSimplifier idSimplifier_ok
      [((0 : ℝ), (0 : ℝ)), (1, 1)] 0 false (by norm_num)).2.1

/-- C10: a LineString or ring with exactly one coordinate flattens to a
single vertex whose significance is 1 (the sole vertex is pinned as both
first and last endpoint), under the Simplifier contract; by contrast a
converted Point vertex carries significance 0. -/
theorem single_vertex_line_pinned (s : Simplifier) (hs : SimplifierOk s)
    (p : Pos) (tolerance : ℝ) (isPolygon : Bool) :
    (convertLine s [p] tolerance isPolygon).verts =
      [projectX p.1, projectY p.2, 1] ∧
    convertPoint p [] = [projectX p.1, projectY p.2, 0] := by
  refine ⟨?_, rfl⟩
  rw [convertLine_verts_eq]
  have hft : flatTriples [p] = [projectX p.1, projectY p.2, 0] := by
    simp [flatTriples]
  rw [hft]
  have hset : ([projectX p.1, projectY p.2, (0 : ℝ)].set 2 1) =
      [projectX p.1, projectY p.2, 1] := by
    simp [List.set]
  simp only [List.length_cons, List.length_nil, hset]
  obtain ⟨hslen, hspres⟩ :=
    hs [projectX p.1, projectY p.2, 1] 0 (2 + 1 - 3) tolerance
  have hfix : s [projectX p.1, projectY p.2, 1] 0 (2 + 1 - 3) tolerance =
      [projectX p.1, projectY p.2, 1] := by
    apply List.ext_getElem?
    intro n
    rcases lt_or_le n 3 with hn | hn
    · exact hspres n (Or.inl ⟨Nat.zero_le n, by omega⟩)
    · rw [List.getElem?_eq_none (by simp at hslen ⊢; omega),
        List.getElem?_eq_none (by simp; omega)]
  rw [hfix]
  norm_num [List.set]

theorem single_vertex_line_pinned_witness :
    SimplifierOk idSimplifier ∧
    (convertLine idSimplifier [((0 : ℝ), (0 : ℝ))] 0 false).verts =
      [projectX 0, projectY 0, 1] ∧
    convertPoint ((0 : ℝ), (0 : ℝ)) [] = [projectX 0, projectY 0, 0] :=
  ⟨idSimplifier_ok,
    (single_vertex_line_pinned idSimplifier idSimplifier_ok ((0 : ℝ), (0 : ℝ)) 0 false).1,
    (single_vertex_line_pinned idSimplifier idSimplifier_ok ((0 : ℝ), (0 : ℝ)) 0 false).2⟩

/-- C8: the metric stored on every flattened ring/line equals the
absolute value of the accumulated running sum (signed shoelace
contributions for a polygon ring, Euclidean segment lengths for an open
line) over the projected vertices, so it is nonnegative, with start = 0
and end = metric; and the square ring [[0,0],[0,10],[10,10],[10,0],[0,0]]
in already-projected units accumulates to metric 100. -/
theorem line_metric_is_abs_accum :
    (∀ (s : Simplifier) (ring : List Pos) (tolerance : ℝ) (isPolygon : Bool),
      (convertLine s ring tolerance isPolygon).size =
        |ringMetric isPolygon (projPoints ring)| ∧
      0 ≤ (convertLine s ring tolerance isPolygon).size ∧
      (convertLine s ring tolerance isPolygon).start = 0 ∧
      (convertLine s ring tolerance isPolygon).«end» =
        (convertLine s ring tolerance isPolygon).size) ∧
    |ringMetric true [((0 : ℝ), (0 : ℝ)), (0, 10), (10, 10), (10, 0), (0, 0)]| = 100 := by
  constructor
  · intro s ring tolerance isPolygon
    refine ⟨convertLine_size_eq s ring tolerance isPolygon, ?_, ?_, ?_⟩
    · rw [convertLine_size_eq]; exact abs_nonneg _
    · simp [convertLine]
    · simp [convertLine]
  · norm_num [ringMetric, segAccum]

/-- C9: `projectY` is total on ℝ, its value is the Mercator expression
clamped to the closed interval [0, 1] (below 0 becomes exactly 0, above
1 becomes exactly 1), and `projectY 0 = 0.5`. -/
theorem projectY_total_clamped :
    (∀ y : ℝ, projectY y = max 0 (min 1 (projectYRaw y)) ∧
      0 ≤ projectY y ∧ projectY y ≤ 1) ∧
    projectY 0 = 0.5 := by
  have hclamp : ∀ y : ℝ, projectY y = max 0 (min 1 (projectYRaw y)) := by
    intro y
    simp only [projectY, projectYRaw]
    split_ifs with h1 h2
    · rw [min_eq_right (by linarith), max_eq_left (by linarith)]
    · rw [min_eq_left (by linarith), max_eq_right (by linarith)]
    · rw [min_eq_right (by linarith), max_eq_right (by linarith)]
  constructor
  · intro y
    refine ⟨hclamp y, ?_, ?_⟩
    · rw [hclamp y]; exact le_max_left 0 _
    · rw [hclamp y]
      exact max_le (by norm_num) (min_le_left 1 _)
  · simp only [projectY, zero_mul, zero_div, Real.sin_zero]
    norm_num

/-! The tolerance computation.  `1 << options.maxZoom` is a JavaScript
32-bit shift, so it agrees with the exact power 2 ^ maxZoom only for
maxZoom ≤ 30 (and, up to the sign that the squaring cancels, for 31). -/

theorem jsShl1_of_le_30 {z : ℕ} (hz : z ≤ 30) : jsShl1 z = 2 ^ z := by
  have hz32 : z % 32 = z := Nat.mod_eq_of_lt (by omega)
  have hlt : (2 : ℕ) ^ z < 2 ^ 31 := Nat.pow_lt_pow_right (by norm_num) (by omega)
  have hlt2 : (2 : ℕ) ^ z < 2 ^ 32 := hlt.trans (by norm_num)
  simp only [jsShl1, toInt32, hz32, Nat.mod_eq_of_lt hlt2, if_pos hlt]
  push_cast
  ring

theorem jsShl1_31 : jsShl1 31 = -(2 ^ 31) := by
  norm_num [jsShl1, toInt32]

theorem toleranceSq_eq_of_le_31 (options : ConvertFeatureOptions)
    (hz : options.maxZoom ≤ 31) :
    toleranceSq options =
      (options.tolerance / (2 ^ options.maxZoom * options.extent)) ^ 2 := by
  rcases Nat.lt_or_ge options.maxZoom 31 with h | h
  · rw [toleranceSq, jsShl1_of_le_30 (by omega)]
    push_cast
    ring
  · have h31 : options.maxZoom = 31 := le_antisymm hz h
    rw [toleranceSq, h31, jsShl1_31]
    push_cast
    rw [show ((-2147483648 : ℝ)) * options.extent =
        -((2147483648 : ℝ) * options.extent) by ring]
    rw [div_neg, neg_sq]
    norm_num

/-- C2 (counterexample): at `maxZoom = 32` (tolerance 1, extent 1) the
squared tolerance the code computes is `(1 / ((1 << 32) * 1))^2 = 1`,
because the JavaScript 32-bit shift wraps `1 << 32` to 1, which differs
from the claimed `(1 / (2^32 * 1))^2`. -/
theorem toleranceSq_not_exact_power_at_32 :
    toleranceSq ⟨32, 1, 1, false, none, false⟩ ≠ ((1 : ℝ) / (2 ^ 32 * 1)) ^ 2 := by
  have h1 : jsShl1 32 = 1 := by norm_num [jsShl1, toInt32]
  rw [toleranceSq]
  simp only [h1]
  norm_num

/-- C2 (amended): for every maxZoom at most 31, positive extent and
nonnegative tolerance, the squared simplification tolerance used for
every ring/line of a convert call equals
`(tolerance / (2^maxZoom * extent))^2` with the exact integer power of
two; on the pipeline, a LineString feature is flattened with exactly
this squared tolerance. -/
theorem toleranceSq_power_formula (options : ConvertFeatureOptions)
    (hz : options.maxZoom ≤ 31) (he : 0 < options.extent)
    (ht : 0 ≤ options.tolerance) :
    toleranceSq options =
      (options.tolerance / (2 ^ options.maxZoom * options.extent)) ^ 2 ∧
    ∀ (s : Simplifier) (feats : List ProtoFeature) (f : Feature)
      (cs : List Pos) (idx : Option ℕ),
      f.geometry = some (.lineString cs) →
      convertFeature s feats f options idx =
        .ok (feats ++ [createFeature (resolveId f.id f.properties options idx)
          "LineString"
          (.line (convertLine s cs
            ((options.tolerance / (2 ^ options.maxZoom * options.extent)) ^ 2)
            false))
          f.properties]) := by
  have h1 := toleranceSq_eq_of_le_31 options hz
  refine ⟨h1, ?_⟩
  intro s feats f cs idx hg
  rw [convertFeature, hg]
  simp only [convertGeometry, h1]

theorem toleranceSq_power_formula_witness :
    (⟨5, 3, 512, false, none, false⟩ : ConvertFeatureOptions).maxZoom ≤ 31 ∧
    (0 : ℝ) < (⟨5, 3, 512, false, none, false⟩ : ConvertFeatureOptions).extent ∧
    (0 : ℝ) ≤ (⟨5, 3, 512, false, none, false⟩ : ConvertFeatureOptions).tolerance ∧
    toleranceSq ⟨5, 3, 512, false, none, false⟩ = ((3 : ℝ) / (2 ^ 5 * 512)) ^ 2 ∧
    convertFeature idSimplifier []
        ⟨none, [], some (.lineString [((0 : ℝ), (0 : ℝ))])⟩
        ⟨5, 3, 512, false, none, false⟩ none =
      .ok [createFeature none "LineString"
        (.line (convertLine idSimplifier [((0 : ℝ), (0 : ℝ))]
          (((3 : ℝ) / (2 ^ 5 * 512)) ^ 2) false)) []] := by
  refine ⟨by norm_num, by norm_num, by norm_num, ?_, ?_⟩
  · exact (toleranceSq_power_formula ⟨5, 3, 512, false, none, false⟩
      (by norm_num) (by norm_num) (by norm_num)).1
  · have h := (toleranceSq_power_formula ⟨5, 3, 512, false, none, false⟩
      (by norm_num) (by norm_num) (by norm_num)).2
      idSimplifier [] ⟨none, [], some (.lineString [((0 : ℝ), (0 : ℝ))])⟩
      [((0 : ℝ), (0 : ℝ))] none rfl
    simpa [resolveId] using h

/-- C1 (counterexample): a feature carrying the explicit id 7 and the
property foo = 9 is converted with `promoteId = "foo"` to a feature
whose id is 9, not the explicit id 7 — the promoted property overrides
the explicit id rather than losing to it. -/
theorem explicit_id_loses_to_promoteId :
    firstId (convertFeatures idSimplifier
      (.feature ⟨some (.num 7), [("foo", .num 9)], some (.point (0, 0))⟩)
      ⟨14, 3, 4096, false, some "foo", false⟩) = some (some (.num 9)) ∧
    JVal.num 9 ≠ JVal.num 7 := by
  constructor
  · simp [convertFeatures, convertFeature, convertGeometry, resolveId,
      List.lookup, firstId, createFeature]
  · decide

/-- C1 (amended): feature-id resolution, first match wins: the value of
the `promoteId` property when that option is given; else the 0-based
collection index (0 when absent) when `generateId` is set; else the
explicit id on the source feature; else no id.  Every feature emitted by
a successful `convertFeature` call carries this resolved id. -/
theorem resolved_id_priority (f : Feature) (options : ConvertFeatureOptions)
    (idx : Option ℕ) (s : Simplifier) (feats res : List ProtoFeature)
    (hok : convertFeature s feats f options idx = .ok res) :
    (∃ δ, res = feats ++ δ ∧
      ∀ pf ∈ δ, pf.id = resolveId f.id f.properties options idx) ∧
    (∀ key, options.promoteId = some key →
      resolveId f.id f.properties options idx = f.properties.lookup key) ∧
    (options.promoteId = none → options.generateId = true →
      resolveId f.id f.properties options idx =
        some (.num ((idx.getD 0 : ℕ) : ℚ))) ∧
    (options.promoteId = none → options.generateId = false →
      resolveId f.id f.properties options idx = f.id) := by
  refine ⟨?_, ?_, ?_, ?_⟩
  · rcases convertFeature_shape s feats f options idx with ⟨δ, hδ, hmem⟩ | herr
    · rw [hok] at hδ
      exact ⟨δ, by injection hδ, fun pf hpf => (hmem pf hpf).1⟩
    · rw [hok] at herr
      exact absurd herr (by simp)
  · intro key hkey
    simp [resolveId, hkey]
  · intro hp hg
    simp [resolveId, hp, hg]
  · intro hp hg
    simp [resolveId, hp, hg]

theorem resolved_id_priority_witness :
    convertFeature idSimplifier []
      ⟨some (.num 7), [("foo", .num 9)], some (.point (0, 0))⟩
      ⟨14, 3, 4096, false, some "foo", false⟩ none =
      .ok [createFeature (some (.num 9)) "Point"
        (.flat (convertPoint (0, 0) [])) [("foo", .num 9)]] ∧
    resolveId (some (.num 7)) [("foo", .num 9)]
      ⟨14, 3, 4096, false, some "foo", false⟩ none = some (.num 9) := by
  have hconv : convertFeature idSimplifier []
      ⟨some (.num 7), [("foo", .num 9)], some (.point (0, 0))⟩
      ⟨14, 3, 4096, false, some "foo", false⟩ none =
      .ok [createFeature (some (.num 9)) "Point"
        (.flat (convertPoint (0, 0) [])) [("foo", .num 9)]] := by
    simp [convertFeature, convertGeometry, resolveId, List.lookup, createFeature]
  refine ⟨hconv, ?_⟩
  have h := (resolved_id_priority
    ⟨some (.num 7), [("foo", .num 9)], some (.point (0, 0))⟩
    ⟨14, 3, 4096, false, some "foo", false⟩ none idSimplifier [] _ hconv).2.1
    "foo" rfl
  simpa [List.lookup] using h

/-- C4: an input containing a geometry of an unrecognized kind (for
example "Circle"), anywhere in a feature of a collection or as a single
feature, makes the whole `convert` call fail with the invalid-GeoJSON
error: the result is the error alone, no partial feature sequence. -/
theorem unsupported_geometry_aborts (s : Simplifier)
    (options : ConvertFeatureOptions) (pre post : List Feature) (f : Feature)
    (g : Geometry) (hg : f.geometry = some g) (hu : HasUnsupported g) :
    convertFeatures s (.featureCollection (pre ++ f :: post)) options =
      .error invalidGeoJSONMessage ∧
    convertFeatures s (.feature f) options = .error invalidGeoJSONMessage := by
  constructor
  · rw [show convertFeatures s (.featureCollection (pre ++ f :: post)) options =
        convertFeaturesLoop s options (pre ++ f :: post) 0 [] from rfl]
    rw [convertFeaturesLoop_append]
    rcases convertFeaturesLoop_shape s options pre 0 [] with ⟨acc, hacc⟩ | herr
    · rw [hacc]
      simp only [convertFeaturesLoop,
        convertFeature_hasUnsupported hg hu s acc options (some (0 + pre.length))]
    · rw [herr]
  · exact convertFeature_hasUnsupported hg hu s [] options none

theorem unsupported_geometry_aborts_witness :
    convertFeatures idSimplifier
      (.featureCollection [⟨none, [], some (.unsupported "Circle")⟩])
      ⟨14, 3, 4096, false, none, false⟩ = .error invalidGeoJSONMessage ∧
    convertFeatures idSimplifier (.feature ⟨none, [], some (.unsupported "Circle")⟩)
      ⟨14, 3, 4096, false, none, false⟩ = .error invalidGeoJSONMessage := by
  have h := unsupported_geometry_aborts idSimplifier
    ⟨14, 3, 4096, false, none, false⟩ [] []
    ⟨none, [], some (.unsupported "Circle")⟩ (.unsupported "Circle") rfl
    (.base "Circle")
  exact ⟨h.1, h.2⟩

/-- C5: a MultiLineString feature with k constituent lines is converted,
under `lineMetrics = true`, into exactly k output features of kind
LineString, each carrying the same resolved id, the same properties and
its own flattened line (with its own metric/start/end); under
`lineMetrics = false`, into exactly one output feature of kind
MultiLineString containing all k flattened lines. -/
theorem multiLineString_explode (s : Simplifier)
    (options : ConvertFeatureOptions) (f : Feature) (lines : List (List Pos))
    (feats : List ProtoFeature) (idx : Option ℕ)
    (hg : f.geometry = some (.multiLineString lines)) :
    (options.lineMetrics = true →
      convertFeature s feats f options idx = .ok (feats ++ lines.map fun line =>
        createFeature (resolveId f.id f.properties options idx) "LineString"
          (.line (convertLine s line (toleranceSq options) false))
          f.properties) ∧
      (lines.map fun line =>
        createFeature (resolveId f.id f.properties options idx) "LineString"
          (.line (convertLine s line (toleranceSq options) false))
          f.properties).length = lines.length) ∧
    (options.lineMetrics = false →
      convertFeature s feats f options idx =
        .ok (feats ++ [createFeature (resolveId f.id f.properties options idx)
          "MultiLineString"
          (.lines (convertLines s lines (toleranceSq options) false))
          f.properties])) := by
  constructor
  · intro hm
    constructor
    · rw [convertFeature, hg]
      simp [convertGeometry, hm]
    · simp
  · intro hm
    rw [convertFeature, hg]
    simp [convertGeometry, hm]

theorem multiLineString_explode_witness :
    convertFeature idSimplifier []
      ⟨none, [], some (.multiLineString [[((0 : ℝ), (0 : ℝ))], [((1 : ℝ), (1 : ℝ))]])⟩
      ⟨14, 3, 4096, true, none, false⟩ none =
      .ok [createFeature none "LineString"
        (.line (convertLine idSimplifier [((0 : ℝ), (0 : ℝ))]
          (toleranceSq ⟨14, 3, 4096, true, none, false⟩) false)) [],
        createFeature none "LineString"
        (.line (convertLine idSimplifier [((1 : ℝ), (1 : ℝ))]
          (toleranceSq ⟨14, 3, 4096, true, none, false⟩) false)) []] ∧
    convertFeature idSimplifier []
      ⟨none, [], some (.multiLineString [[((0 : ℝ), (0 : ℝ))], [((1 : ℝ), (1 : ℝ))]])⟩
      ⟨14, 3, 4096, false, none, false⟩ none =
      .ok [createFeature none "MultiLineString"
        (.lines (convertLines idSimplifier
          [[((0 : ℝ), (0 : ℝ))], [((1 : ℝ), (1 : ℝ))]]
          (toleranceSq ⟨14, 3, 4096, false, none, false⟩) false)) []] := by
  constructor
  · have h := ((multiLineString_explode idSimplifier
      ⟨14, 3, 4096, true, none, false⟩
      ⟨none, [], some (.multiLineString [[((0 : ℝ), (0 : ℝ))], [((1 : ℝ), (1 : ℝ))]])⟩
      [[((0 : ℝ), (0 : ℝ))], [((1 : ℝ), (1 : ℝ))]] [] none rfl).1 rfl).1
    simpa [resolveId] using h
  · have h := (multiLineString_explode idSimplifier
      ⟨14, 3, 4096, false, none, false⟩
      ⟨none, [], some (.multiLineString [[((0 : ℝ), (0 : ℝ))], [((1 : ℝ), (1 : ℝ))]])⟩
      [[((0 : ℝ), (0 : ℝ))], [((1 : ℝ), (1 : ℝ))]] [] none rfl).2 rfl
    simpa [resolveId] using h

theorem countP_geometry_split (fs : List Feature) :
    fs.countP (fun f => f.geometry.isSome) +
      fs.countP (fun f => f.geometry.isNone) = fs.length := by
  induction fs with
  | nil => simp
  | cons f rest ih =>
    simp only [List.countP_cons, List.length_cons]
    cases hfg : f.geometry <;> simp [hfg] <;> omega

/-- C6: for a feature collection whose members either have no geometry
(M of them) or a recognized, non-collection, non-exploded geometry kind,
`convert` succeeds and returns exactly N - M intermediate features:
geometry-less features contribute nothing, raise no error, and
processing continues. -/
theorem missing_geometry_skipped (s : Simplifier)
    (options : ConvertFeatureOptions) (fs : List Feature)
    (h : ∀ f ∈ fs, f.geometry = none ∨
      ∃ g, f.geometry = some g ∧ ContributesOne options g) :
    ∃ res, convertFeatures s (.featureCollection fs) options = .ok res ∧
      res.length = fs.length - fs.countP (fun f => f.geometry.isNone) ∧
      res.length = fs.countP (fun f => f.geometry.isSome) := by
  obtain ⟨δ, hδ, hlen⟩ := convertFeaturesLoop_count options s fs h 0 []
  have hsplit := countP_geometry_split fs
  refine ⟨δ, by simpa [convertFeatures] using hδ, ?_, hlen⟩
  omega

theorem missing_geometry_skipped_witness :
    (∀ f ∈ ([⟨none, [], some (.point (0, 0))⟩,
        ⟨none, [], none⟩,
        ⟨none, [], some (.lineString [((0 : ℝ), (0 : ℝ))])⟩] : List Feature),
      f.geometry = none ∨ ∃ g, f.geometry = some g ∧
        ContributesOne ⟨14, 3, 4096, false, none, false⟩ g) ∧
    ∃ res, convertFeatures idSimplifier
        (.featureCollection [⟨none, [], some (.point (0, 0))⟩,
          ⟨none, [], none⟩,
          ⟨none, [], some (.lineString [((0 : ℝ), (0 : ℝ))])⟩])
        ⟨14, 3, 4096, false, none, false⟩ = .ok res ∧
      res.length = 3 - 1 ∧ res.length = 2 := by
  have hcond : ∀ f ∈ ([⟨none, [], some (.point (0, 0))⟩,
      ⟨none, [], none⟩,
      ⟨none, [], some (.lineString [((0 : ℝ), (0 : ℝ))])⟩] : List Feature),
      f.geometry = none ∨ ∃ g, f.geometry = some g ∧
        ContributesOne ⟨14, 3, 4096, false, none, false⟩ g := by
    intro f hf
    simp only [List.mem_cons, List.not_mem_nil, or_false] at hf
    rcases hf with rfl | rfl | rfl
    · right; exact ⟨.point (0, 0), rfl, trivial⟩
    · left; rfl
    · right; exact ⟨.lineString [((0 : ℝ), (0 : ℝ))], rfl, trivial⟩
  refine ⟨hcond, ?_⟩
  obtain ⟨res, hres, hl1, hl2⟩ := missing_geometry_skipped idSimplifier
    ⟨14, 3, 4096, false, none, false⟩ _ hcond
  exact ⟨res, hres, by simpa using hl1, by simpa using hl2⟩

/-- C7 (counterexample): a GeometryCollection with a single child (a
MultiLineString of two lines), converted under `lineMetrics = true`,
emits two intermediate features — not one feature per child. -/
theorem geometryCollection_exploded_child_cex :
    okLength (convertFeature idSimplifier []
      ⟨none, [], some (.geometryCollection
        [.multiLineString [[((0 : ℝ), (0 : ℝ))], [((1 : ℝ), (1 : ℝ))]]])⟩
      ⟨14, 3, 4096, true, none, false⟩ none) = some 2 ∧
    ([Geometry.multiLineString [[((0 : ℝ), (0 : ℝ))], [((1 : ℝ), (1 : ℝ))]]] :
      List Geometry).length = 1 ∧
    (2 : ℕ) ≠ 1 := by
  refine ⟨?_, by simp, by decide⟩
  simp [convertFeature, convertGeometry, convertGeometryList, resolveId,
    okLength]

/-- C7 (amended): a GeometryCollection feature whose children are each of
a recognized non-collection kind and not exploded (that is, not a
MultiLineString under `lineMetrics`) is converted into exactly one
intermediate feature per child, each carrying the parent's resolved id
and the parent's properties; no wrapper feature is emitted and no
emitted feature has kind GeometryCollection. -/
theorem geometryCollection_expands (s : Simplifier)
    (options : ConvertFeatureOptions) (f : Feature) (gs : List Geometry)
    (feats : List ProtoFeature) (idx : Option ℕ)
    (hg : f.geometry = some (.geometryCollection gs))
    (hone : ∀ g ∈ gs, ContributesOne options g) :
    ∃ δ, convertFeature s feats f options idx = .ok (feats ++ δ) ∧
      δ.length = gs.length ∧
      ∀ pf ∈ δ, pf.id = resolveId f.id f.properties options idx ∧
        pf.properties = f.properties ∧ pf.type ≠ "GeometryCollection" := by
  rw [show convertFeature s feats f options idx =
      convertGeometryList s feats (resolveId f.id f.properties options idx)
        f.properties options idx gs from by
    rw [convertFeature, hg]; simp [convertGeometry]]
  obtain ⟨δ, hδ, hlen, hmem⟩ := convertGeometryList_all_one hone s
    (resolveId f.id f.properties options idx) f.properties idx feats
  refine ⟨δ, hδ, hlen, fun pf hpf => ?_⟩
  obtain ⟨h1, h2, h3⟩ := hmem pf hpf
  exact ⟨by rw [h1, resolveId_idem], h2, h3⟩

theorem geometryCollection_expands_witness :
    (∀ g ∈ ([.point (0, 0), .point (1, 1), .lineString [((2 : ℝ), (2 : ℝ))]] :
        List Geometry),
      ContributesOne ⟨14, 3, 4096, false, none, false⟩ g) ∧
    ∃ δ, convertFeature idSimplifier []
        ⟨some (.num 5), [("name", .str "x")],
          some (.geometryCollection
            [.point (0, 0), .point (1, 1), .lineString [((2 : ℝ), (2 : ℝ))]])⟩
        ⟨14, 3, 4096, false, none, false⟩ none = .ok ([] ++ δ) ∧
      δ.length = 3 ∧
      ∀ pf ∈ δ, pf.id = some (.num 5) ∧
        pf.properties = [("name", .str "x")] ∧
        pf.type ≠ "GeometryCollection" := by
  have hone : ∀ g ∈ ([.point (0, 0), .point (1, 1),
      .lineString [((2 : ℝ), (2 : ℝ))]] : List Geometry),
      ContributesOne ⟨14, 3, 4096, false, none, false⟩ g := by
    intro g hg
    simp only [List.mem_cons, List.not_mem_nil, or_false] at hg
    rcases hg with rfl | rfl | rfl <;> trivial
  refine ⟨hone, ?_⟩
  obtain ⟨δ, hδ, hlen, hmem⟩ := geometryCollection_expands idSimplifier
    ⟨14, 3, 4096, false, none, false⟩
    ⟨some (.num 5), [("name", .str "x")],
      some (.geometryCollection
        [.point (0, 0), .point (1, 1), .lineString [((2 : ℝ), (2 : ℝ))]])⟩
    [.point (0, 0), .point (1, 1), .lineString [((2 : ℝ), (2 : ℝ))]]
    [] none rfl hone
  refine ⟨δ, hδ, by simpa using hlen, fun pf hpf => ?_⟩
  have h := hmem pf hpf
  simpa [resolveId] using h

end ConvertGeojson
